import Mathlib

/-!
Verification of the options-chain data pipeline in `streamlit_app.py`.

The embedding models a pandas DataFrame holding one options chain as a list
of rows together with flags for the optional columns that the code may add.
The remote provider (yfinance) is modelled as an oracle function passed to
each gateway function; a provider failure is an `Except.error` outcome,
which the gateway converts to an empty result (the `except:` branches).
-/

namespace OptionChain

/-- Option side tag: the value written into the `option_type` column
("Call" or "Put") by `get_options_chain`. -/
inductive OptionType
  | Call
  | Put
  deriving DecidableEq

/-- One raw provider record: a row of `options_chain.calls` or
`options_chain.puts` as returned by `ticker.option_chain(expiration)`.
Only the columns the pipeline reads are modelled; remaining provider
columns are passed through untouched and are irrelevant to the claims. -/
structure RawRecord where
  strike : Rat
  openInterest : Int
  volume : Int
  deriving DecidableEq

/-- One row of the normalized chain table produced by `get_options_chain`:
a raw record plus the `option_type` tag and the stamped `expiration_date`. -/
structure Row where
  strike : Rat
  option_type : OptionType
  openInterest : Int
  volume : Int
  expiration_date : String
  deriving DecidableEq

/-- A pandas DataFrame as used by the script.  `rows` is the row sequence,
`hasChainCols` records whether the base chain columns (openInterest etc.)
exist (`pd.DataFrame()` from the `except:` branch of `get_options_chain`
has no columns at all), and `prev_col` / `change_col` are the two derived
columns that `plot_change_in_open_interest` assigns in place, stored
column-wise, absent (`none`) until assigned. -/
structure PDF where
  rows : List Row
  hasChainCols : Bool
  prev_col : Option (List Int)
  change_col : Option (List Int)
  deriving DecidableEq

/-- One row of the derived table: the base row plus the two computed
columns `prev_openInterest` and `change_in_OI`. -/
structure DRow where
  row : Row
  prev : Int
  chg : Int
  deriving DecidableEq

/-- The `pd.DataFrame()` returned by the `except:` branch of
`get_options_chain`: no rows and no columns. -/
def emptyPDF : PDF := ⟨[], false, none, none⟩

/-- Tagging one raw record with its side and the expiration date:
`calls_df["option_type"] = "Call"` / `puts_df["option_type"] = "Put"`
followed by `df["expiration_date"] = expiration`. -/
def mkRow (ty : OptionType) (e : String) (r : RawRecord) : Row :=
  ⟨r.strike, ty, r.openInterest, r.volume, e⟩

/-- The normalizer inside `get_options_chain` (lines 25-29): tag the call
side `"Call"`, the put side `"Put"`, concatenate calls before puts
(`pd.concat([calls_df, puts_df], ignore_index=True)`) and stamp every row
with the given expiration. -/
def normalize (calls puts : List RawRecord) (e : String) : PDF :=
  ⟨calls.map (mkRow OptionType.Call e) ++ puts.map (mkRow OptionType.Put e),
   true, none, none⟩

/-- `get_all_expiration_dates` (lines 10-17): return `ticker.options`, or
`[]` when the provider call raises.  `listExp` is the provider oracle. -/
def get_all_expiration_dates (listExp : String → Except Unit (List String))
    (t : String) : List String :=
  match listExp t with
  | Except.ok l => l
  | Except.error _ => []

/-- `get_options_chain` (lines 19-31): fetch the raw call/put record sets
for one expiration and normalize them, or return `pd.DataFrame()` when the
provider call raises.  `chainRaw` is the provider oracle. -/
def get_options_chain
    (chainRaw : String → String → Except Unit (List RawRecord × List RawRecord))
    (t e : String) : PDF :=
  match chainRaw t e with
  | Except.ok cp => normalize cp.1 cp.2 e
  | Except.error _ => emptyPDF

/-- Access to the `openInterest` column, `df["openInterest"]`: a `KeyError`
(`none`) when the DataFrame lacks the chain columns. -/
def colOpenInterest (df : PDF) : Option (List Int) :=
  if df.hasChainCols then some (df.rows.map (fun r => r.openInterest)) else none

/-- The guard on line 41, `not df.empty and df["openInterest"].sum() > 0`,
with Python's short-circuit `and`: the column is only accessed when the
DataFrame is non-empty, and a `KeyError` on that access is `none`. -/
def validCheck (df : PDF) : Option Bool :=
  if df.rows.isEmpty then some false
  else Option.map (fun col => decide (0 < List.sum col)) (colOpenInterest df)

/-- Total description of the line-41 guard on the tables `get_options_chain`
actually returns (which always carry the chain columns when non-empty). -/
def validBool (df : PDF) : Bool :=
  (!df.rows.isEmpty) && decide (0 < List.sum (df.rows.map (fun r => r.openInterest)))

/-- The validation loop of `get_valid_expirations` (lines 39-42): examine
the candidates in order, keep those passing the guard; a `KeyError` while
evaluating the guard (`none`) would propagate as a fault. -/
def validPass
    (chainRaw : String → String → Except Unit (List RawRecord × List RawRecord))
    (t : String) : List String → Option (List String)
  | [] => some []
  | e :: rest =>
    match validCheck (get_options_chain chainRaw t e) with
    | none => none
    | some b => Option.map (fun l => if b then e :: l else l) (validPass chainRaw t rest)

/-- `get_valid_expirations` (lines 33-44): filter the Gateway's expiration
list down to those whose fetched chain passes the line-41 guard. -/
def get_valid_expirations (listExp : String → Except Unit (List String))
    (chainRaw : String → String → Except Unit (List RawRecord × List RawRecord))
    (t : String) : Option (List String) :=
  validPass chainRaw t (get_all_expiration_dates listExp t)

/-- The open interest of the most recent row with the given strike in the
reversed prefix `acc` of already-scanned rows, or the `fill_value` 0 when
that strike has not been seen: the value `shift(1, fill_value=0)` places at
the current position of its strike group. -/
def lastOI : List Row → Rat → Int
  | [], _ => 0
  | r :: rest, s => if r.strike = s then r.openInterest else lastOI rest s

/-- Scan underlying `withChangeInOI`: `acc` holds the already-processed
rows in reverse.  Each row is annotated with
`prev = df.groupby("strike")["openInterest"].shift(1, fill_value=0)`
(the open interest of the previous row of the same strike group, realigned
to the row's original position) and `chg = openInterest - prev`. -/
def shiftOIAux (acc : List Row) : List Row → List DRow
  | [] => []
  | r :: rest =>
    ⟨r, lastOI acc r.strike, r.openInterest - lastOI acc r.strike⟩
      :: shiftOIAux (r :: acc) rest

/-- The derived-field computation of `plot_change_in_open_interest`
(lines 55-58) on a fresh chain table:
`df["prev_openInterest"] = df.groupby("strike")["openInterest"].shift(1, fill_value=0)`
followed by `df["change_in_OI"] = df["openInterest"] - df["prev_openInterest"]`. -/
def withChangeInOI (l : List Row) : List DRow := shiftOIAux [] l

/-- The zero-change filter on line 59:
`df_filtered = df[df["change_in_OI"] != 0]`. -/
def nonZeroChanges (d : List DRow) : List DRow :=
  d.filter (fun dr => decide (dr.chg ≠ 0))

/-- The strike group of a derived table: the rows with the given strike in
their original relative order. -/
def strikeGroup (s : Rat) (d : List DRow) : List DRow :=
  d.filter (fun dr => decide (dr.row.strike = s))

/-- `shift(1, fill_value=seed)` of one group's column: the first element
becomes `seed` and every later element the one before it. -/
def seedShift (seed : Int) : List Int → List Int
  | [] => []
  | x :: xs => seed :: List.dropLast (x :: xs)

/-- The sort key relation of `plot_open_interest_sorted` (line 89):
`sort_values(by=["expiration_date", "strike"], ascending=[False, True])`,
i.e. `a` may precede `b` iff `a`'s expiration date is lexicographically
greater (pandas compares strings lexicographically by code point, here the
lexicographic order on the strings' character lists), or the dates are
equal and `a`'s strike is at most `b`'s.  For a multi-column sort pandas
uses numpy's stable `lexsort`, so the sort is the unique stable sort by
this total preorder, here realized by the stable `List.insertionSort`. -/
def keyLe (a b : Row) : Prop :=
  b.expiration_date.data < a.expiration_date.data ∨
    (a.expiration_date = b.expiration_date ∧ a.strike ≤ b.strike)

instance instKeyLeDecidable : DecidableRel keyLe := by
  intro a b
  unfold keyLe
  infer_instance

instance instKeyLeTotal : IsTotal Row keyLe := by
  constructor
  intro a b
  rcases lt_trichotomy a.expiration_date.data b.expiration_date.data with h | h | h
  · exact Or.inr (Or.inl h)
  · rcases le_total a.strike b.strike with hs | hs
    · exact Or.inl (Or.inr ⟨String.ext h, hs⟩)
    · exact Or.inr (Or.inr ⟨(String.ext h).symm, hs⟩)
  · exact Or.inl (Or.inl h)

instance instKeyLeTrans : IsTrans Row keyLe := by
  constructor
  intro a b c hab hbc
  rcases hab with hab | ⟨hab, sab⟩ <;> rcases hbc with hbc | ⟨hbc, sbc⟩
  · exact Or.inl (lt_trans hbc hab)
  · exact Or.inl (congrArg String.data hbc ▸ hab)
  · exact Or.inl (congrArg String.data hab ▸ hbc)
  · exact Or.inr ⟨hab.trans hbc, le_trans sab sbc⟩

/-- Test whether a row carries the given (expiration_date, strike) sort
key; rows agreeing on `keyIs` are ties of the line-89 sort. -/
def keyIs (e : String) (s : Rat) (r : Row) : Bool :=
  decide (r.expiration_date = e ∧ r.strike = s)

/-- `plot_change_in_open_interest` (lines 53-59) as a state transformer on
its argument DataFrame: the call assigns the `prev_openInterest` column in
place when it is absent (`if "prev_openInterest" not in df.columns`),
always (re)assigns the `change_in_OI` column in place, and uses the
zero-change filtered view for the plot.  The first component is the state
of the caller's DataFrame after the call, the second the filtered derived
view handed to the bar plot. -/
def plot_change_in_open_interest (df : PDF) : PDF × List DRow :=
  let prev := match df.prev_col with
    | some p => p
    | none => (withChangeInOI df.rows).map (fun dr => dr.prev)
  let ann := (df.rows.zip prev).map
    (fun rp => (⟨rp.1, rp.2, rp.1.openInterest - rp.2⟩ : DRow))
  (⟨df.rows, df.hasChainCols, some prev, some (ann.map (fun dr => dr.chg))⟩,
   nonZeroChanges ann)

/-- `plot_volume` (lines 78-79): the positive-volume filtered view
`df[df["volume"] > 0]` is a fresh frame; the input is left unchanged. -/
def plot_volume (df : PDF) : PDF × List Row :=
  (df, df.rows.filter (fun r => decide (0 < r.volume)))

/-- `plot_open_interest_sorted` (lines 88-89): filter to rows with
positive open interest and stable-sort by (expiration_date descending,
strike ascending); the result is a fresh frame and the input is left
unchanged. -/
def plot_open_interest_sorted (df : PDF) : PDF × List Row :=
  (df, List.insertionSort keyLe (df.rows.filter (fun r => decide (0 < r.openInterest))))

/-- Linear search of the memo store by key. -/
def assocFind {κ α : Type} [DecidableEq κ] : List (κ × α) → κ → Option α
  | [], _ => none
  | kv :: rest, k => if k = kv.1 then some kv.2 else assocFind rest k

/-- Modelled from the spec: the `st.cache_data` decorator applied to the
three fetch functions is not part of the repository (it is Streamlit
library behavior); per spec section 4.5 it is a session-scoped memoizing
wrapper keyed by the argument tuple.  `cachedCall f st k` performs one
decorated call against memo store `st`; the third component counts how
often the wrapped function was invoked during this call (0 on a hit, 1 on
a miss), a proxy for provider I/O. -/
def cachedCall {κ α : Type} [DecidableEq κ] (f : κ → α)
    (st : List (κ × α)) (k : κ) : α × List (κ × α) × Nat :=
  match assocFind st k with
  | some v => (v, st, 0)
  | none => (f k, (k, f k) :: st, 1)

/-- `get_all_expiration_dates` under its `@st.cache_data` decorator,
keyed by ticker. -/
def cached_get_all_expiration_dates (listExp : String → Except Unit (List String))
    (st : List (String × List String)) (t : String) :
    List String × List (String × List String) × Nat :=
  cachedCall (get_all_expiration_dates listExp) st t

/-- `get_options_chain` under its `@st.cache_data` decorator, keyed by
(ticker, expiration). -/
def cached_get_options_chain
    (chainRaw : String → String → Except Unit (List RawRecord × List RawRecord))
    (st : List ((String × String) × PDF)) (k : String × String) :
    PDF × List ((String × String) × PDF) × Nat :=
  cachedCall (fun q => get_options_chain chainRaw q.1 q.2) st k

/-- `get_valid_expirations` under its `@st.cache_data` decorator, keyed by
ticker. -/
def cached_get_valid_expirations (listExp : String → Except Unit (List String))
    (chainRaw : String → String → Except Unit (List RawRecord × List RawRecord))
    (st : List (String × Option (List String))) (t : String) :
    Option (List String) × List (String × Option (List String)) × Nat :=
  cachedCall (get_valid_expirations listExp chainRaw) st t

/-- Demo provider oracle used by the witnesses: two expirations. -/
def demoListExp : String → Except Unit (List String) :=
  fun _ => Except.ok ["E1", "E2"]

/-- Demo chain oracle used by the witnesses: expiration "E1" has a single
record with zero open interest, "E2" a single record with open interest 5
(spec test property 2). -/
def demoChainRaw : String → String → Except Unit (List RawRecord × List RawRecord) :=
  fun _ e =>
    if e = "E2" then Except.ok ([⟨100, 5, 1⟩], [])
    else Except.ok ([⟨100, 0, 0⟩], [])

/-- Provider oracle whose expiration listing always fails. -/
def failListExp : String → Except Unit (List String) :=
  fun _ => Except.error ()

/-- Chain oracle whose chain fetch always fails. -/
def failChainRaw : String → String → Except Unit (List RawRecord × List RawRecord) :=
  fun _ _ => Except.error ()

theorem isEmpty_eq_false_iff {α : Type} (l : List α) : l.isEmpty = false ↔ l ≠ [] := by
  cases l <;> simp

theorem validCheck_get_options_chain
    (chainRaw : String → String → Except Unit (List RawRecord × List RawRecord))
    (t e : String) :
    validCheck (get_options_chain chainRaw t e)
      = some (validBool (get_options_chain chainRaw t e)) := by
  unfold get_options_chain
  cases h : chainRaw t e with
  | error u => simp [validCheck, validBool, emptyPDF]
  | ok cp =>
    simp only [validCheck, validBool, colOpenInterest, normalize]
    by_cases hrows :
        (List.map (mkRow OptionType.Call e) cp.1 ++ List.map (mkRow OptionType.Put e) cp.2).isEmpty
    · simp [hrows]
    · simp [hrows]

theorem validPass_eq_filter
    (chainRaw : String → String → Except Unit (List RawRecord × List RawRecord))
    (t : String) (es : List String) :
    validPass chainRaw t es
      = some (es.filter (fun e => validBool (get_options_chain chainRaw t e))) := by
  induction es with
  | nil => rfl
  | cons e rest ih =>
    simp only [validPass, validCheck_get_options_chain, ih, Option.map_some,
      List.filter_cons]
    cases hb : validBool (get_options_chain chainRaw t e) <;> simp

theorem get_valid_expirations_eq (listExp : String → Except Unit (List String))
    (chainRaw : String → String → Except Unit (List RawRecord × List RawRecord))
    (t : String) :
    get_valid_expirations listExp chainRaw t
      = some ((get_all_expiration_dates listExp t).filter
          (fun e => validBool (get_options_chain chainRaw t e))) :=
  validPass_eq_filter chainRaw t _

/-- Claim C1: for every ticker, an expiration is in the result of
`get_valid_expirations` iff it is among the ticker's listed candidate
expirations and fetching its chain yields a non-empty table whose total
`openInterest` sum is strictly positive; an expiration whose fetch fails
softly (empty table) or whose rows all have zero open interest is
excluded. -/
theorem valid_expirations_mem_iff
    (listExp : String → Except Unit (List String))
    (chainRaw : String → String → Except Unit (List RawRecord × List RawRecord))
    (t e : String) :
    ∃ l, get_valid_expirations listExp chainRaw t = some l ∧
      (e ∈ l ↔ e ∈ get_all_expiration_dates listExp t ∧
        ((get_options_chain chainRaw t e).rows ≠ [] ∧
          0 < List.sum ((get_options_chain chainRaw t e).rows.map
            (fun r => r.openInterest)))) := by
  refine ⟨_, get_valid_expirations_eq listExp chainRaw t, ?_⟩
  simp only [List.mem_filter, validBool, Bool.and_eq_true, Bool.not_eq_true',
    decide_eq_true_eq, isEmpty_eq_false_iff, and_assoc]

/-- Witness for C1 at the concrete spec example: "E1" (all zero open
interest) is excluded while "E2" (one record with open interest 5) is
included. -/
theorem valid_expirations_mem_iff_witness :
    (∃ l, get_valid_expirations demoListExp demoChainRaw "T" = some l ∧
      ("E2" ∈ l ↔ "E2" ∈ get_all_expiration_dates demoListExp "T" ∧
        ((get_options_chain demoChainRaw "T" "E2").rows ≠ [] ∧
          0 < List.sum ((get_options_chain demoChainRaw "T" "E2").rows.map
            (fun r => r.openInterest))))) ∧
    get_valid_expirations demoListExp demoChainRaw "T" = some ["E2"] :=
  ⟨valid_expirations_mem_iff demoListExp demoChainRaw "T" "E2", by decide⟩

/-- Claim C6: on a provider failure, `get_all_expiration_dates` returns the
empty sequence and `get_options_chain` returns the empty table; both
functions are total, so no exception reaches the caller. -/
theorem gateway_soft_failure
    (listExp : String → Except Unit (List String))
    (chainRaw : String → String → Except Unit (List RawRecord × List RawRecord))
    (t e : String) :
    (listExp t = Except.error () → get_all_expiration_dates listExp t = []) ∧
    (chainRaw t e = Except.error () → get_options_chain chainRaw t e = emptyPDF) := by
  constructor
  · intro h
    simp [get_all_expiration_dates, h]
  · intro h
    simp [get_options_chain, h]

/-- Witness for C6: concrete always-failing oracles yield the empty
sequence and the empty table. -/
theorem gateway_soft_failure_witness :
    get_all_expiration_dates failListExp "T" = [] ∧
    get_options_chain failChainRaw "T" "E1" = emptyPDF :=
  ⟨(gateway_soft_failure failListExp failChainRaw "T" "E1").1 rfl,
   (gateway_soft_failure failListExp failChainRaw "T" "E1").2 rfl⟩

/-- Claim C8: the sequence returned by `get_valid_expirations` is an
order-preserving subsequence of the sequence returned by
`get_all_expiration_dates`: candidates are examined in the Gateway's order
and the filtered result preserves that order. -/
theorem valid_expirations_sublist
    (listExp : String → Except Unit (List String))
    (chainRaw : String → String → Except Unit (List RawRecord × List RawRecord))
    (t : String) (l : List String)
    (h : get_valid_expirations listExp chainRaw t = some l) :
    List.Sublist l (get_all_expiration_dates listExp t) := by
  have h2 := get_valid_expirations_eq listExp chainRaw t
  rw [h, Option.some_inj] at h2
  rw [h2]
  exact List.filter_sublist _

/-- Witness for C8 at the demo oracles: `["E2"]` is a subsequence of
`["E1", "E2"]`. -/
theorem valid_expirations_sublist_witness :
    List.Sublist ["E2"] (get_all_expiration_dates demoListExp "T") :=
  valid_expirations_sublist demoListExp demoChainRaw "T" ["E2"] (by decide)

/-- Claim C10: `get_valid_expirations` is total for every provider oracle:
the guard tests emptiness before summing the `openInterest` column (so the
column of an empty, column-less table is never accessed, even though that
access alone would be a `KeyError`), and a ticker all of whose fetches fail
softly yields the empty result rather than a fault. -/
theorem valid_expirations_total
    (listExp : String → Except Unit (List String))
    (chainRaw : String → String → Except Unit (List RawRecord × List RawRecord))
    (t : String) :
    (get_valid_expirations listExp chainRaw t).isSome = true ∧
    validCheck emptyPDF = some false ∧
    colOpenInterest emptyPDF = none ∧
    ((∀ e, chainRaw t e = Except.error ()) →
      get_valid_expirations listExp chainRaw t = some []) := by
  refine ⟨?_, rfl, rfl, ?_⟩
  · rw [get_valid_expirations_eq]
    rfl
  · intro hall
    rw [get_valid_expirations_eq]
    congr 1
    apply List.filter_eq_nil_iff.mpr
    intro e _
    simp [get_options_chain, hall e, validBool, emptyPDF]

/-- Witness for C10: with a listing of two candidates and an always-failing
chain oracle the result evaluates, and is empty. -/
theorem valid_expirations_total_witness :
    (get_valid_expirations demoListExp failChainRaw "T").isSome = true ∧
    get_valid_expirations demoListExp failChainRaw "T" = some [] :=
  ⟨(valid_expirations_total demoListExp failChainRaw "T").1,
   (valid_expirations_total demoListExp failChainRaw "T").2.2.2 (fun _ => rfl)⟩

/-- Claim C3: the normalizer inside `get_options_chain` produces exactly
`c + p` rows from `c` call records and `p` put records; every call-origin
row is tagged Call, every put-origin row Put, every row is stamped with the
given expiration, and all call rows precede all put rows with each side's
internal order preserved (the per-column projections of the output are the
concatenations of the per-column projections of the inputs), so no row is
dropped or duplicated. -/
theorem normalize_spec (calls puts : List RawRecord) (e : String) :
    (normalize calls puts e).rows.length = calls.length + puts.length ∧
    (normalize calls puts e).rows.map (fun r => r.option_type)
      = List.replicate calls.length OptionType.Call
        ++ List.replicate puts.length OptionType.Put ∧
    (∀ r ∈ (normalize calls puts e).rows, r.expiration_date = e) ∧
    (normalize calls puts e).rows.map (fun r => r.strike)
      = calls.map (fun c => c.strike) ++ puts.map (fun p => p.strike) ∧
    (normalize calls puts e).rows.map (fun r => r.openInterest)
      = calls.map (fun c => c.openInterest) ++ puts.map (fun p => p.openInterest) ∧
    (normalize calls puts e).rows.map (fun r => r.volume)
      = calls.map (fun c => c.volume) ++ puts.map (fun p => p.volume) := by
  refine ⟨?_, ?_, ?_, ?_, ?_, ?_⟩
  · simp [normalize]
  · simp only [normalize, List.map_append, List.map_map]
    congr 1 <;> simp [List.eq_replicate_iff, mkRow]
  · intro r hr
    simp only [normalize, List.mem_append, List.mem_map] at hr
    rcases hr with ⟨c, _, rfl⟩ | ⟨p, _, rfl⟩ <;> rfl
  · simp only [normalize, List.map_append, List.map_map]
    rfl
  · simp only [normalize, List.map_append, List.map_map]
    rfl
  · simp only [normalize, List.map_append, List.map_map]
    rfl

/-- Witness for C3 at one call record and one put record. -/
theorem normalize_spec_witness :
    (normalize [⟨100, 5, 1⟩] [⟨90, 2, 3⟩] "2025-01-01").rows.length = 1 + 1 ∧
    (normalize [⟨100, 5, 1⟩] [⟨90, 2, 3⟩] "2025-01-01").rows.map
        (fun r => r.option_type) = [OptionType.Call, OptionType.Put] ∧
    (mkRow OptionType.Call "2025-01-01" ⟨100, 5, 1⟩).expiration_date = "2025-01-01" :=
  ⟨(normalize_spec [⟨100, 5, 1⟩] [⟨90, 2, 3⟩] "2025-01-01").1,
   ((normalize_spec [⟨100, 5, 1⟩] [⟨90, 2, 3⟩] "2025-01-01").2.1).trans (by decide),
   (normalize_spec [⟨100, 5, 1⟩] [⟨90, 2, 3⟩] "2025-01-01").2.2.1
     (mkRow OptionType.Call "2025-01-01" ⟨100, 5, 1⟩) (by decide)⟩

theorem seedShift_cons (seed x : Int) (xs : List Int) :
    seedShift seed (x :: xs) = seed :: seedShift x xs := by
  cases xs with
  | nil => rfl
  | cons y ys => rfl

theorem shiftOIAux_chg (acc : List Row) (l : List Row) :
    ∀ dr ∈ shiftOIAux acc l, dr.chg = dr.row.openInterest - dr.prev := by
  induction l generalizing acc with
  | nil => intro dr h; cases h
  | cons r rest ih =>
    intro dr h
    rcases h with _ | ⟨_, hmem⟩
    · rfl
    · exact ih (r :: acc) dr hmem

theorem shiftOIAux_group (acc : List Row) (l : List Row) (s : Rat) :
    (strikeGroup s (shiftOIAux acc l)).map (fun dr => dr.prev)
      = seedShift (lastOI acc s)
          ((l.filter (fun r => decide (r.strike = s))).map
            (fun r => r.openInterest)) := by
  induction l generalizing acc with
  | nil => rfl
  | cons r rest ih =>
    have hrec := ih (r :: acc)
    by_cases hs : r.strike = s
    · have hlast : lastOI (r :: acc) s = r.openInterest := by
        simp [lastOI, hs]
      rw [hlast] at hrec
      simp only [shiftOIAux, strikeGroup, List.filter_cons] at hrec ⊢
      simp only [hs, decide_True, if_true, List.map_cons, seedShift_cons, hrec]
    · have hlast : lastOI (r :: acc) s = lastOI acc s := by
        simp [lastOI, hs]
      rw [hlast] at hrec
      simp only [shiftOIAux, strikeGroup, List.filter_cons] at hrec ⊢
      simp [hs, hrec]

/-- Claim C2: the derived-field computation realizes the stable
group-by-strike semantics: every row's `change_in_OI` is its
`openInterest` minus its `prev_openInterest`; within each strike group
(original relative order preserved) the `prev_openInterest` column is the
group's `openInterest` column shifted down by one with 0 in front; hence
the first row of each strike group has `prev_openInterest = 0` and
`change_in_OI` equal to its own `openInterest`. -/
theorem withChangeInOI_groupby (l : List Row) (s : Rat) :
    (∀ dr ∈ withChangeInOI l, dr.chg = dr.row.openInterest - dr.prev) ∧
    (strikeGroup s (withChangeInOI l)).map (fun dr => dr.prev)
      = seedShift 0 ((l.filter (fun r => decide (r.strike = s))).map
          (fun r => r.openInterest)) ∧
    (∀ dr tl, strikeGroup s (withChangeInOI l) = dr :: tl →
      dr.prev = 0 ∧ dr.chg = dr.row.openInterest) := by
  refine ⟨shiftOIAux_chg [] l, shiftOIAux_group [] l s, ?_⟩
  intro dr tl hgroup
  have hmap : (strikeGroup s (withChangeInOI l)).map (fun dr => dr.prev)
      = seedShift 0 ((l.filter (fun r => decide (r.strike = s))).map
          (fun r => r.openInterest)) := shiftOIAux_group [] l s
  rw [hgroup] at hmap
  have hprev : dr.prev = 0 := by
    cases hf : (l.filter (fun r => decide (r.strike = s))).map
        (fun r => r.openInterest) with
    | nil => rw [hf] at hmap; cases hmap
    | cons x xs =>
      rw [hf, seedShift_cons] at hmap
      exact (List.cons.injEq _ _ _ _ ▸ hmap).1
  have hdr : dr ∈ withChangeInOI l := by
    have : dr ∈ strikeGroup s (withChangeInOI l) := by
      rw [hgroup]; exact List.mem_cons_self dr tl
    exact List.mem_of_mem_filter this
  have := shiftOIAux_chg [] l dr hdr
  rw [hprev] at this ⊢
  exact ⟨rfl, by omega⟩

/-- Witness for C2 at the spec's test chain (strike 100 occurring twice
with open interest 30 then 50): the first occurrence has
`prev_openInterest = 0` and `change_in_OI = 30`. -/
theorem withChangeInOI_groupby_witness :
    (⟨⟨100, OptionType.Call, 30, 0, "2025-01-01"⟩, 0, 30⟩ : DRow).prev = 0 ∧
    (⟨⟨100, OptionType.Call, 30, 0, "2025-01-01"⟩, 0, 30⟩ : DRow).chg
      = (⟨⟨100, OptionType.Call, 30, 0, "2025-01-01"⟩, 0, 30⟩ : DRow).row.openInterest :=
  (withChangeInOI_groupby
      [⟨100, OptionType.Call, 30, 0, "2025-01-01"⟩,
       ⟨100, OptionType.Call, 50, 0, "2025-01-01"⟩] 100).2.2
    ⟨⟨100, OptionType.Call, 30, 0, "2025-01-01"⟩, 0, 30⟩
    [⟨⟨100, OptionType.Call, 50, 0, "2025-01-01"⟩, 30, 20⟩]
    (by decide)

/-- Claim C9: `nonZeroChanges` keeps exactly the rows whose `change_in_OI`
is nonzero, in their original order (it is a subsequence of its input
containing every nonzero-change row and no zero-change row). -/
theorem nonZeroChanges_spec (d : List DRow) :
    List.Sublist (nonZeroChanges d) d ∧
    (∀ dr ∈ nonZeroChanges d, dr.chg ≠ 0) ∧
    (∀ dr ∈ d, dr.chg ≠ 0 → dr ∈ nonZeroChanges d) := by
  refine ⟨List.filter_sublist _, ?_, ?_⟩
  · intro dr h
    have := List.of_mem_filter h
    simpa using this
  · intro dr h hchg
    apply List.mem_filter.mpr
    exact ⟨h, by simpa using hchg⟩

/-- Witness for C9: in a two-row derived table with changes 0 and 20, the
nonzero-change row is kept. -/
theorem nonZeroChanges_spec_witness :
    (⟨⟨100, OptionType.Call, 50, 0, "2025-01-01"⟩, 30, 20⟩ : DRow) ∈
      nonZeroChanges
        [⟨⟨100, OptionType.Call, 30, 0, "2025-01-01"⟩, 30, 0⟩,
         ⟨⟨100, OptionType.Call, 50, 0, "2025-01-01"⟩, 30, 20⟩] :=
  (nonZeroChanges_spec
      [⟨⟨100, OptionType.Call, 30, 0, "2025-01-01"⟩, 30, 0⟩,
       ⟨⟨100, OptionType.Call, 50, 0, "2025-01-01"⟩, 30, 20⟩]).2.2
    ⟨⟨100, OptionType.Call, 50, 0, "2025-01-01"⟩, 30, 20⟩
    (by decide) (by decide)

theorem shiftOIAux_row (acc : List Row) (l : List Row) :
    (shiftOIAux acc l).map (fun dr => dr.row) = l := by
  induction l generalizing acc with
  | nil => rfl
  | cons r rest ih => simp [shiftOIAux, ih (r :: acc)]

theorem zip_prev_annotate (acc : List Row) (l : List Row) :
    (l.zip ((shiftOIAux acc l).map (fun dr => dr.prev))).map
      (fun rp => (⟨rp.1, rp.2, rp.1.openInterest - rp.2⟩ : DRow))
      = shiftOIAux acc l := by
  induction l generalizing acc with
  | nil => rfl
  | cons r rest ih =>
    simp only [shiftOIAux, List.map_cons, List.zip_cons_cons]
    exact congrArg _ (ih (r :: acc))

/-- On a fresh chain table (no `prev_openInterest` column yet) the plot
function's derived view and assigned columns are exactly those of
`withChangeInOI`. -/
theorem plot_change_fresh (df : PDF) (h : df.prev_col = none) :
    (plot_change_in_open_interest df).2
      = nonZeroChanges (withChangeInOI df.rows) ∧
    (plot_change_in_open_interest df).1.prev_col
      = some ((withChangeInOI df.rows).map (fun dr => dr.prev)) ∧
    (plot_change_in_open_interest df).1.change_col
      = some ((withChangeInOI df.rows).map (fun dr => dr.chg)) := by
  have hz : (df.rows.zip ((withChangeInOI df.rows).map (fun dr => dr.prev))).map
      (fun rp => (⟨rp.1, rp.2, rp.1.openInterest - rp.2⟩ : DRow))
      = withChangeInOI df.rows := zip_prev_annotate [] df.rows
  refine ⟨?_, ?_, ?_⟩ <;>
    simp [plot_change_in_open_interest, h, hz]

/-- Counterexample to claim C5 as stated: `plot_change_in_open_interest`
does not leave the table it was given unchanged — on a one-row fresh chain
table the call adds the `prev_openInterest` and `change_in_OI` columns to
its argument in place, so the post-call state of the argument differs from
the table that was passed in. -/
theorem plot_change_mutates_input :
    (plot_change_in_open_interest
        ⟨[⟨100, OptionType.Call, 30, 0, "2025-01-01"⟩], true, none, none⟩).1
      ≠ ⟨[⟨100, OptionType.Call, 30, 0, "2025-01-01"⟩], true, none, none⟩ := by
  decide

/-- Claim C5 (amended): the view operations `plot_volume` and
`plot_open_interest_sorted` are pure: they leave the table they were given
unchanged.  `plot_change_in_open_interest` leaves every base column and the
row order unchanged but assigns the two derived columns
(`prev_openInterest`, `change_in_OI`) on its input in place; it is
idempotent, and all results depend only on the input table. -/
theorem plot_ops_frame (df : PDF) :
    (plot_volume df).1 = df ∧
    (plot_open_interest_sorted df).1 = df ∧
    (plot_change_in_open_interest df).1.rows = df.rows ∧
    (plot_change_in_open_interest df).1.hasChainCols = df.hasChainCols ∧
    plot_change_in_open_interest ((plot_change_in_open_interest df).1)
      = plot_change_in_open_interest df := by
  refine ⟨rfl, rfl, rfl, rfl, ?_⟩
  cases h : df.prev_col <;> simp [plot_change_in_open_interest, h]

/-- Witness for C5 (amended) at a concrete one-row table. -/
theorem plot_ops_frame_witness :
    (plot_volume ⟨[⟨100, OptionType.Call, 30, 0, "2025-01-01"⟩], true, none, none⟩).1
      = ⟨[⟨100, OptionType.Call, 30, 0, "2025-01-01"⟩], true, none, none⟩ :=
  (plot_ops_frame ⟨[⟨100, OptionType.Call, 30, 0, "2025-01-01"⟩], true, none, none⟩).1

theorem filter_keyIs_pairwise (l : List Row) (e : String) (s : Rat) :
    (l.filter (keyIs e s)).Pairwise keyLe := by
  apply List.pairwise_of_forall_mem_list
  intro a ha b hb
  have ha2 := List.of_mem_filter ha
  have hb2 := List.of_mem_filter hb
  simp only [keyIs, decide_eq_true_eq] at ha2 hb2
  exact Or.inr ⟨ha2.1.trans hb2.1.symm, ha2.2.trans hb2.2.symm ▸ le_refl _⟩

/-- Stability of the stable sort: the subsequence of rows carrying any
fixed sort key is unchanged by sorting. -/
theorem insertionSort_filter_keyIs (l : List Row) (e : String) (s : Rat) :
    (List.insertionSort keyLe l).filter (keyIs e s) = l.filter (keyIs e s) := by
  have hsub : List.Sublist (l.filter (keyIs e s)) (List.insertionSort keyLe l) :=
    List.sublist_insertionSort (filter_keyIs_pairwise l e s) (List.filter_sublist l)
  have hsub2 : List.Sublist ((l.filter (keyIs e s)).filter (keyIs e s))
      ((List.insertionSort keyLe l).filter (keyIs e s)) := hsub.filter _
  rw [List.filter_filter] at hsub2
  have hsub3 : List.Sublist (l.filter (keyIs e s))
      ((List.insertionSort keyLe l).filter (keyIs e s)) := by
    have : (fun a => keyIs e s a && keyIs e s a) = keyIs e s := by
      funext a
      cases keyIs e s a <;> rfl
    rwa [this] at hsub2
  have hperm : List.Perm ((List.insertionSort keyLe l).filter (keyIs e s))
      (l.filter (keyIs e s)) :=
    (List.perm_insertionSort keyLe l).filter _
  exact (hsub3.eq_of_length hperm.length_eq.symm).symm

/-- Claim C4: the sorted-open-interest view keeps exactly the rows with
positive open interest (it is a permutation of the positive-open-interest
filter of the input), orders them by expiration_date descending then
strike ascending (`List.Sorted keyLe`), and the sort is stable: rows tied
on both keys keep their original relative order (for every key the
key-filtered subsequence of the output equals that of the filtered
input). -/
theorem plot_open_interest_sorted_spec (df : PDF) :
    List.Perm (plot_open_interest_sorted df).2
      (df.rows.filter (fun r => decide (0 < r.openInterest))) ∧
    List.Sorted keyLe (plot_open_interest_sorted df).2 ∧
    (∀ e s, (plot_open_interest_sorted df).2.filter (keyIs e s)
        = (df.rows.filter (fun r => decide (0 < r.openInterest))).filter (keyIs e s)) := by
  refine ⟨List.perm_insertionSort keyLe _, List.sorted_insertionSort keyLe _, ?_⟩
  intro e s
  exact insertionSort_filter_keyIs _ e s

/-- Witness for C4 at the spec's sort-stability example: rows at
("2025-01-01", strikes 100 and 90) and ("2025-02-01", strike 100), all
with positive open interest; the "2025-02-01" row sorts first, then
within "2025-01-01" strike 90 before 100. -/
theorem plot_open_interest_sorted_spec_witness :
    List.Perm
      (plot_open_interest_sorted
        ⟨[⟨100, OptionType.Call, 10, 0, "2025-01-01"⟩,
          ⟨90, OptionType.Call, 10, 0, "2025-01-01"⟩,
          ⟨100, OptionType.Call, 10, 0, "2025-02-01"⟩], true, none, none⟩).2
      ((⟨[⟨100, OptionType.Call, 10, 0, "2025-01-01"⟩,
          ⟨90, OptionType.Call, 10, 0, "2025-01-01"⟩,
          ⟨100, OptionType.Call, 10, 0, "2025-02-01"⟩], true, none, none⟩ : PDF).rows.filter
        (fun r => decide (0 < r.openInterest))) ∧
    (plot_open_interest_sorted
        ⟨[⟨100, OptionType.Call, 10, 0, "2025-01-01"⟩,
          ⟨90, OptionType.Call, 10, 0, "2025-01-01"⟩,
          ⟨100, OptionType.Call, 10, 0, "2025-02-01"⟩], true, none, none⟩).2
      = [⟨100, OptionType.Call, 10, 0, "2025-02-01"⟩,
         ⟨90, OptionType.Call, 10, 0, "2025-01-01"⟩,
         ⟨100, OptionType.Call, 10, 0, "2025-01-01"⟩] :=
  ⟨(plot_open_interest_sorted_spec
      ⟨[⟨100, OptionType.Call, 10, 0, "2025-01-01"⟩,
        ⟨90, OptionType.Call, 10, 0, "2025-01-01"⟩,
        ⟨100, OptionType.Call, 10, 0, "2025-02-01"⟩], true, none, none⟩).1,
   by decide⟩

theorem cachedCall_second {κ α : Type} [DecidableEq κ] (f : κ → α)
    (st : List (κ × α)) (k : κ) :
    cachedCall f (cachedCall f st k).2.1 k
      = ((cachedCall f st k).1, (cachedCall f st k).2.1, 0) := by
  unfold cachedCall
  cases h : assocFind st k with
  | some v => simp [h]
  | none => simp [assocFind, h]

/-- Claim C7: each cached operation invokes its underlying computation at
most once per session key: a second call with identical arguments returns
a result equal to the first, leaves the memo store unchanged, and performs
zero invocations of the wrapped function (hence no provider I/O). -/
theorem cached_ops_idempotent (listExp : String → Except Unit (List String))
    (chainRaw : String → String → Except Unit (List RawRecord × List RawRecord))
    (st1 : List (String × List String))
    (st2 : List ((String × String) × PDF))
    (st3 : List (String × Option (List String)))
    (t : String) (k : String × String) :
    cached_get_all_expiration_dates listExp
        (cached_get_all_expiration_dates listExp st1 t).2.1 t
      = ((cached_get_all_expiration_dates listExp st1 t).1,
         (cached_get_all_expiration_dates listExp st1 t).2.1, 0) ∧
    cached_get_options_chain chainRaw
        (cached_get_options_chain chainRaw st2 k).2.1 k
      = ((cached_get_options_chain chainRaw st2 k).1,
         (cached_get_options_chain chainRaw st2 k).2.1, 0) ∧
    cached_get_valid_expirations listExp chainRaw
        (cached_get_valid_expirations listExp chainRaw st3 t).2.1 t
      = ((cached_get_valid_expirations listExp chainRaw st3 t).1,
         (cached_get_valid_expirations listExp chainRaw st3 t).2.1, 0) :=
  ⟨cachedCall_second _ st1 t, cachedCall_second _ st2 k, cachedCall_second _ st3 t⟩

/-- Witness for C7: a concrete second fetch of the same (ticker,
expiration) key against the demo oracle hits the cache. -/
theorem cached_ops_idempotent_witness :
    cached_get_options_chain demoChainRaw
        (cached_get_options_chain demoChainRaw [] ("T", "E2")).2.1 ("T", "E2")
      = ((cached_get_options_chain demoChainRaw [] ("T", "E2")).1,
         (cached_get_options_chain demoChainRaw [] ("T", "E2")).2.1, 0) :=
  (cached_ops_idempotent demoListExp demoChainRaw [] [] [] "T" ("T", "E2")).2.1

end OptionChain
